import Mathlib

/-!
Verification of the FluidNC streaming engine (cat-butt-oracle repository).

Shallow embedding of the serial-streaming core of the repository:

* `src/fluidnc/connection.py`  — transport (`write`, `readline`, `read_until_ok`)
* `src/fluidnc/streamer.py`    — command dispatcher (`send_command`, `connect`)
* `src/fluidnc/advanced_streamer.py` — flow-controlled streamer (`_stream_buffered`)
* `src/fluidnc/status.py`      — status decoder (`FluidNCStatus.parse`)
* `src/fluidnc/utils.py`       — error-code table (`parse_error_code`)

Wire text is modelled as `List Char`.  Python `int()` / `float()` are modelled
by `pyInt?` / `pyFloat?` (sign + decimal forms; exotic acceptances such as
`inf`, `nan` and digit-group underscores are not modelled — no claim depends
on them).  Python exceptions are modelled with `Option`; functions whose
Python bodies catch every exception they can raise are total.
-/

set_option maxRecDepth 4000

namespace FluidNC

/-- Wire text: a Python `str` as a list of characters. -/
abbrev Str := List Char

/-- Conversion from a Lean string literal to wire text. -/
def str (s : String) : Str := s.toList

/-- Python whitespace for `str.strip` / `str.rstrip` (space, tab, LF, CR, VT, FF). -/
def pyWhitespace (c : Char) : Bool :=
  c = ' ' || c = '\t' || c = '\n' || c = '\r' || c = '\x0b' || c = '\x0c'

/-- Python `str.lstrip()`. -/
def lstripW (s : Str) : Str := s.dropWhile pyWhitespace

/-- Python `str.rstrip()`. -/
def rstripW (s : Str) : Str := (s.reverse.dropWhile pyWhitespace).reverse

/-- Python `str.strip()`. -/
def stripW (s : Str) : Str := lstripW (rstripW s)

/-- Python `str.startswith(p)`. -/
def startsWithStr : Str → Str → Bool
  | [], _ => true
  | _ :: _, [] => false
  | p :: ps, c :: cs => p = c && startsWithStr ps cs

/-- Python `str.endswith(p)`. -/
def endsWithStr (p s : Str) : Bool := startsWithStr p.reverse s.reverse

/-- Python `str.split(sep)` for a one-character separator (no maxsplit). -/
def splitOnCh (sep : Char) : Str → List Str
  | [] => [[]]
  | c :: rest =>
    if c = sep then [] :: splitOnCh sep rest
    else
      match splitOnCh sep rest with
      | [] => [[c]]
      | h :: t => (c :: h) :: t

/-- Python `str.split(sep, 1)` for a one-character separator: `none` when the
separator does not occur (the Python call then returns a one-element list). -/
def splitOnceCh (sep : Char) : Str → Option (Str × Str)
  | [] => none
  | c :: rest =>
    if c = sep then some ([], rest)
    else
      match splitOnceCh sep rest with
      | none => none
      | some (a, b) => some (c :: a, b)

/-- Decimal value of a digit string (used by the `int()`/`float()` models). -/
def natOfDigits (s : Str) : Nat :=
  s.foldl (fun acc c => acc * 10 + (c.toNat - '0'.toNat)) 0

/-- An unsigned decimal literal: nonempty, all digits. -/
def digitsVal? (s : Str) : Option Nat :=
  if s ≠ [] ∧ s.all Char.isDigit then some (natOfDigits s) else none

/-- Model of Python `int(s)` (decimal): surrounding whitespace, an optional
sign, then a nonempty digit string. -/
def pyInt? (s : Str) : Option Int :=
  match stripW s with
  | [] => none
  | c :: rest =>
    if c = '+' then (digitsVal? rest).map Int.ofNat
    else if c = '-' then (digitsVal? rest).map (fun n => -(n : Int))
    else (digitsVal? (c :: rest)).map Int.ofNat

/-- Exponent part of a float literal: optional sign then nonempty digits. -/
def pyExp? (s : Str) : Option Int :=
  match s with
  | [] => none
  | c :: rest =>
    if c = '+' then (digitsVal? rest).map Int.ofNat
    else if c = '-' then (digitsVal? rest).map (fun n => -(n : Int))
    else (digitsVal? (c :: rest)).map Int.ofNat

/-- Mantissa of a float literal: `I`, `I.F`, `I.` or `.F` with `I`,`F` digit
strings, not both empty. -/
def pyMant? (s : Str) : Option ℚ :=
  match splitOnCh '.' s with
  | [i] => (digitsVal? i).map (fun n => (n : ℚ))
  | [i, f] =>
    if (i ≠ [] ∨ f ≠ []) ∧ i.all Char.isDigit ∧ f.all Char.isDigit then
      some ((natOfDigits i : ℚ) + (natOfDigits f : ℚ) / (10 : ℚ) ^ f.length)
    else none
  | _ => none

/-- Model of Python `float(s)` for finite decimal forms (optionally signed
mantissa with optional `e`/`E` exponent).  `inf`/`nan` are not modelled. -/
def pyFloat? (s0 : Str) : Option ℚ :=
  let s := stripW s0
  let signed : ℚ × Str :=
    match s with
    | '+' :: rest => (1, rest)
    | '-' :: rest => (-1, rest)
    | t => (1, t)
  let (mantStr, expStr) := signed.2.span (fun c => !(c = 'e' || c = 'E'))
  let exp? : Option Int :=
    match expStr with
    | [] => some 0
    | _ :: r => pyExp? r
  match pyMant? mantStr, exp? with
  | some m, some e => some (signed.1 * m * (10 : ℚ) ^ e)
  | _, _ => none

/-! Section: Transport (`src/fluidnc/connection.py`) -/

/-- The data transformation of `FluidNCConnection.write` (connection.py:106-123):
if the data does not already end with a newline, trailing whitespace is
stripped and a single `\n` is appended; otherwise the data passes unchanged. -/
def writeData (data : Str) : Str :=
  if endsWithStr (str "\n") data then data else rstripW data ++ str "\n"

/-- Observable transport state: the byte strings handed to `serial.write`
(after the `write` transformation) and the pending incoming lines, in the
order `serial.readline` will deliver them. -/
structure Transport where
  written : List Str
  input : List Str
deriving DecidableEq, Repr

/-- `FluidNCConnection.write` as a state transformer (connection.py:106-123). -/
def twrite (t : Transport) (data : Str) : Transport :=
  { t with written := t.written ++ [writeData data] }

/-- `FluidNCConnection.readline` (connection.py:125-136): pops the next line
and strips it; an exhausted input models a read timeout, which yields `""`. -/
def readlineT (t : Transport) : Str × Transport :=
  match t.input with
  | [] => ([], t)
  | l :: rest => (stripW l, { t with input := rest })

/-- Loop body of `FluidNCConnection.read_until_ok` (connection.py:138-175):
accumulate nonempty (stripped) lines until one begins with `ok` or `error`
and return their `\n`-join together with the unread input; exhausting the
input without a terminator models the `TimeoutError` (`none`). -/
def readUntilOkAux (acc : List Str) : List Str → Option (Str × List Str)
  | [] => none
  | l :: rest =>
    let sl := stripW l
    if sl ≠ [] then
      if startsWithStr (str "ok") sl || startsWithStr (str "error") sl then
        some (List.intercalate (str "\n") (acc ++ [sl]), rest)
      else readUntilOkAux (acc ++ [sl]) rest
    else readUntilOkAux acc rest

/-- `FluidNCConnection.read_until_ok` on a transport. -/
def readUntilOkT (t : Transport) : Option (Str × Transport) :=
  match readUntilOkAux [] t.input with
  | none => none
  | some (resp, rest) => some (resp, { t with input := rest })

/-! Section: Command dispatcher (`src/fluidnc/streamer.py`) -/

/-- The immediate single-character commands `?`, `!`, `~`
(streamer.py:16-19, advanced_streamer.py:22-25). -/
def immediateCommands : List Str := [str "?", str "!", str "~"]

/-- `FluidNCStreamer.send_command` (streamer.py:99-136): empty command returns
`""` untouched; otherwise the stripped command is written, immediate commands
then read a single reply line, ordinary commands wait on `read_until_ok` when
`wait_for_ok` (a timeout propagates as `none`) and return `""` otherwise. -/
def sendCommandS (command : Str) (waitForOk : Bool) (t : Transport) :
    Option (Str × Transport) :=
  if command = [] then some ([], t)
  else
    let command := stripW command
    let t := twrite t command
    if command ∈ immediateCommands then
      let (r, t') := readlineT t
      some (r, t')
    else if waitForOk then
      match readUntilOkT t with
      | none => none
      | some (resp, t') => some (resp, t')
    else some ([], t)

/-- `AdvancedFluidNCStreamer.send_immediate_command`
(advanced_streamer.py:176-187): write, then read one reply line. -/
def sendImmediateA (command : Str) (t : Transport) : Str × Transport :=
  readlineT (twrite t command)

/-- `AdvancedFluidNCStreamer.send_command` (advanced_streamer.py:189-217):
empty command returns `""`; immediate commands delegate to
`send_immediate_command`; ordinary commands optionally wait for `ok`. -/
def sendCommandA (command : Str) (waitForOk : Bool) (t : Transport) :
    Option (Str × Transport) :=
  if command = [] then some ([], t)
  else
    let command := stripW command
    if command ∈ immediateCommands then
      let (r, t') := sendImmediateA command t
      some (r, t')
    else
      let t := twrite t command
      if waitForOk then
        match readUntilOkT t with
        | none => none
        | some (resp, t') => some (resp, t')
      else some ([], t)

/-! Section: Connection supervisor (`connection.py:25-57`, `streamer.py:59-71`) -/

/-- Persistent connection attributes mutated by `FluidNCConnection.open`. -/
structure ConnState where
  port : Option Str
  connected : Bool
deriving DecidableEq, Repr

/-- External outcomes during `open`: the ports found by
`detect_fluidnc_ports`, whether `serial.Serial(...)` succeeds, and whether
`_test_fluidnc_communication` validates the device. -/
structure OpenEnv where
  detectedPorts : List Str
  serialOpenOk : Bool
  commTestOk : Bool

/-- Tail of `FluidNCConnection.open` after the port is known
(connection.py:41-57): returns the post-state and the raised exception, if
any.  `_connected` is set only after the handshake validates. -/
def openAtPort (s : ConnState) (e : OpenEnv) : ConnState × Option Str :=
  if e.serialOpenOk = false then (s, some (str "SerialException"))
  else if e.commTestOk = false then
    (s, some (str "does not appear to be a FluidNC controller"))
  else ({ s with connected := true }, none)

/-- `FluidNCConnection.open` (connection.py:25-57): early return when already
connected; otherwise auto-detect a port when unset (raising when none found),
open the serial device and validate the handshake.  Mutations made before a
raise persist, as in Python. -/
def openConn (s : ConnState) (e : OpenEnv) : ConnState × Option Str :=
  if s.connected then (s, none)
  else
    match s.port with
    | none =>
      match e.detectedPorts with
      | [] => (s, some (str "No FluidNC ports detected"))
      | p :: _ => openAtPort { s with port := some p } e
    | some _ => openAtPort s e

/-- `FluidNCStreamer.connect` (streamer.py:59-71, identically
advanced_streamer.py:71-83): `try: open(); return True except: return False`. -/
def connectS (s : ConnState) (e : OpenEnv) : Bool × ConnState :=
  match openConn s e with
  | (s', none) => (true, s')
  | (s', some _) => (false, s')

/-! Section: Flow-controlled streamer (`advanced_streamer.py:332-464`) -/

/-- `RX_BUFFER_SIZE` (advanced_streamer.py:29). -/
def RX_BUFFER_SIZE : Int := 127

/-- `PLANNER_BUFFER_SIZE` (advanced_streamer.py:30). -/
def PLANNER_BUFFER_SIZE : Int := 32

/-- `command_size` (advanced_streamer.py:384-386): line length plus two. -/
def commandSize (cmd : Str) : Nat := cmd.length + 2

/-- Credit-tracking state of `_stream_buffered`.  `rxAvail` and
`plannerAvail` are `_rx_buffer_available` / `_planner_buffer_available`;
`linesSent` / `linesConfirmed` are the loop counters.  `inFlight` is
specification-level bookkeeping (the byte costs of sent-but-unacknowledged
lines, oldest first): the code keeps no such structure, tracking only the
two counters, and acknowledgments are assumed FIFO as the spec states. -/
structure StreamState where
  rxAvail : Int
  plannerAvail : Int
  inFlight : List Nat
  linesSent : Nat
  linesConfirmed : Nat
deriving DecidableEq, Repr

/-- Session-start state (advanced_streamer.py:359-360, 391-392): credits at
their configured maxima, nothing sent or in flight. -/
def initStream : StreamState :=
  { rxAvail := RX_BUFFER_SIZE, plannerAvail := PLANNER_BUFFER_SIZE,
    inFlight := [], linesSent := 0, linesConfirmed := 0 }

/-- Effect of admitting one command (advanced_streamer.py:418-426): write it,
decrement the rx credit by its byte cost and the planner credit by one,
record it in flight and bump `lines_sent`. -/
def admitLine (s : StreamState) (cmd : Str) : StreamState :=
  { rxAvail := s.rxAvail - commandSize cmd,
    plannerAvail := s.plannerAvail - 1,
    inFlight := s.inFlight ++ [commandSize cmd],
    linesSent := s.linesSent + 1,
    linesConfirmed := s.linesConfirmed }

/-- The send pass of `_stream_buffered` (advanced_streamer.py:411-432): walk
the line queue from the front, admitting each command whose byte cost fits
the rx credit while a planner slot is free, and stop at the first command
that does not fit.  Returns the final state, the commands written (in order)
and the remaining queue. -/
def sendPass : StreamState → List Str → StreamState × List Str × List Str
  | s, [] => (s, [], [])
  | s, cmd :: rest =>
    if (commandSize cmd : Int) ≤ s.rxAvail ∧ 0 < s.plannerAvail then
      let r := sendPass (admitLine s cmd) rest
      (r.1, cmd :: r.2.1, r.2.2)
    else (s, [], cmd :: rest)

/-- Body of the drain loop of `_stream_buffered`
(advanced_streamer.py:434-440): a response line beginning with `ok` bumps
`lines_confirmed` and frees one planner slot (retiring the oldest in-flight
command); every other line — including `error:` lines — is ignored. -/
def drainOne (s : StreamState) (response : Str) : StreamState :=
  if startsWithStr (str "ok") response then
    { s with linesConfirmed := s.linesConfirmed + 1,
             plannerAvail := s.plannerAvail + 1,
             inFlight := s.inFlight.tail }
  else s

/-- The drain loop over the currently buffered response lines
(advanced_streamer.py:434-440). -/
def drainPass (s : StreamState) (responses : List Str) : StreamState :=
  responses.foldl drainOne s

/-- Body of the final confirmation loop (advanced_streamer.py:447-452): an
`ok` bumps only `lines_confirmed`; no credit is restored there. -/
def finalDrainOne (s : StreamState) (response : Str) : StreamState :=
  if startsWithStr (str "ok") response then
    { s with linesConfirmed := s.linesConfirmed + 1,
             inFlight := s.inFlight.tail }
  else s

/-- Credit resynchronization from a status report's `Bf` field
(advanced_streamer.py:405-408): both credits are overwritten by the
controller-reported values. -/
def applyStatusBf (s : StreamState) (planner rx : Int) : StreamState :=
  { s with rxAvail := rx, plannerAvail := planner }

/-- The rx half of the spec's credit invariant:
`rx_credit + Σ(in-flight byte costs) == RX_BUFFER_SIZE`. -/
def rxCreditInvariant (s : StreamState) : Prop :=
  s.rxAvail + ((s.inFlight.map (Int.ofNat)).sum) = RX_BUFFER_SIZE

instance (s : StreamState) : Decidable (rxCreditInvariant s) := by
  unfold rxCreditInvariant; infer_instance

/-- The planner half of the spec's credit invariant:
`planner_credit + |in_flight| == PLANNER_BUFFER_SIZE`. -/
def plannerCreditInvariant (s : StreamState) : Prop :=
  s.plannerAvail + (s.inFlight.length : Int) = PLANNER_BUFFER_SIZE

instance (s : StreamState) : Decidable (plannerCreditInvariant s) := by
  unfold plannerCreditInvariant; infer_instance

/-- Number of acknowledgment lines (prefix `ok`) in a response batch. -/
def countOk (responses : List Str) : Nat :=
  (responses.filter (fun r => startsWithStr (str "ok") r)).length

/-! Section: Status decoder (`src/fluidnc/status.py`) -/

/-- The `FluidNCStatus` dataclass (status.py:6-52) with the `__post_init__`
defaults materialized: positions are `(x, y, z)` triples, buffer counts are
the `planner` / `rx` entries of `buffer_status`, overrides the
`feed` / `rapid` / `spindle` entries. -/
structure Status where
  mode : Str
  machinePosition : ℚ × ℚ × ℚ
  workPosition : ℚ × ℚ × ℚ
  workCoordinateOffset : ℚ × ℚ × ℚ
  activePins : List Str
  feedRate : ℚ
  spindleSpeed : ℚ
  bufferPlanner : Int
  bufferRx : Int
  overrideFeed : Int
  overrideRapid : Int
  overrideSpindle : Int
  rawStatus : Str
deriving DecidableEq, Repr

/-- Dataclass defaults after `__post_init__` (status.py:10-52): mode
`"Unknown"`, positions `(0,0,0)`, no pins, zero feed/spindle, buffer counts
`{planner: 0, rx: 0}`, overrides `{feed: 100, rapid: 100, spindle: 100}`. -/
def defaultStatus : Status :=
  { mode := str "Unknown",
    machinePosition := (0, 0, 0),
    workPosition := (0, 0, 0),
    workCoordinateOffset := (0, 0, 0),
    activePins := [],
    feedRate := 0,
    spindleSpeed := 0,
    bufferPlanner := 0,
    bufferRx := 0,
    overrideFeed := 100,
    overrideRapid := 100,
    overrideSpindle := 100,
    rawStatus := [] }

/-- `result[axes[i]] = float(value)` (status.py:156) on an `(x,y,z)` triple. -/
def setAxis (i : Nat) (q : ℚ) (r : ℚ × ℚ × ℚ) : ℚ × ℚ × ℚ :=
  if i = 0 then (q, r.2.1, r.2.2)
  else if i = 1 then (r.1, q, r.2.2)
  else if i = 2 then (r.1, r.2.1, q)
  else r

/-- Loop of `_parse_position` (status.py:149-160): for each component with
index below three, assign the parsed float, leaving the entry untouched when
`float()` raises. -/
def parsePosAux : Nat → List Str → (ℚ × ℚ × ℚ) → (ℚ × ℚ × ℚ)
  | _, [], r => r
  | i, v :: rest, r =>
    let r' :=
      if i < 3 then
        match pyFloat? v with
        | some q => setAxis i q r
        | none => r
      else r
    parsePosAux (i + 1) rest r'

/-- `FluidNCStatus._parse_position` (status.py:138-160). -/
def parsePosition (s : Str) : ℚ × ℚ × ℚ :=
  parsePosAux 0 (splitOnCh ',' s) (0, 0, 0)

/-- The `FS` branch (status.py:98-109): feed then spindle, each assigned in
its own `try`, so one malformed component does not block the other. -/
def applyFS (st : Status) (value : Str) : Status :=
  let values := splitOnCh ',' value
  let st1 :=
    match values.get? 0 with
    | some v =>
      match pyFloat? v with
      | some q => { st with feedRate := q }
      | none => st
    | none => st
  match values.get? 1 with
  | some v =>
    match pyFloat? v with
    | some q => { st1 with spindleSpeed := q }
    | none => st1
  | none => st1

/-- The `Bf` branch (status.py:112-119): both assignments share one `try`,
so a malformed second component still leaves the first assigned. -/
def applyBf (st : Status) (value : Str) : Status :=
  let values := splitOnCh ',' value
  match values.get? 0, values.get? 1 with
  | some v0, some v1 =>
    match pyInt? v0 with
    | none => st
    | some p =>
      match pyInt? v1 with
      | none => { st with bufferPlanner := p }
      | some r => { st with bufferPlanner := p, bufferRx := r }
  | _, _ => st

/-- The `Ov` branch (status.py:126-134): three assignments in one `try`,
aborting at the first malformed component with earlier ones retained. -/
def applyOv (st : Status) (value : Str) : Status :=
  let values := splitOnCh ',' value
  match values.get? 0, values.get? 1, values.get? 2 with
  | some v0, some v1, some v2 =>
    match pyInt? v0 with
    | none => st
    | some f =>
      match pyInt? v1 with
      | none => { st with overrideFeed := f }
      | some r =>
        match pyInt? v2 with
        | none => { st with overrideFeed := f, overrideRapid := r }
        | some sp =>
          { st with overrideFeed := f, overrideRapid := r,
                    overrideSpindle := sp }
  | _, _, _ => st

/-- Key dispatch of the section loop of `FluidNCStatus.parse`
(status.py:89-134): unknown keys leave the status untouched. -/
def applyKeyValue (st : Status) (key value : Str) : Status :=
  if key = str "MPos" then { st with machinePosition := parsePosition value }
  else if key = str "WPos" then { st with workPosition := parsePosition value }
  else if key = str "WCO" then
    { st with workCoordinateOffset := parsePosition value }
  else if key = str "FS" then applyFS st value
  else if key = str "Bf" then applyBf st value
  else if key = str "Pn" then { st with activePins := splitOnCh ',' value }
  else if key = str "Ov" then applyOv st value
  else st

/-- Body of the section loop of `FluidNCStatus.parse` (status.py:78-134):
skip empty sections and sections whose `split(':', 1)` does not yield two
parts; otherwise dispatch on the key. -/
def applySection (st : Status) (sec : Str) : Status :=
  if sec = [] then st
  else
    match splitOnceCh ':' sec with
    | none => st
    | some (key, value) => applyKeyValue st key value

/-- The key of a section, when it has one (`section.split(':', 1)`). -/
def sectionKey (sec : Str) : Option Str :=
  (splitOnceCh ':' sec).map Prod.fst

/-- The section loop of `FluidNCStatus.parse` over `sections[1:]`. -/
def parseSections (st : Status) (sections : List Str) : Status :=
  sections.foldl applySection st

/-- `FluidNCStatus.parse` (status.py:54-136): input not enclosed in `<...>`
yields the defaults carrying only the raw line; otherwise the envelope
content is split on `|`, the first section (stripped) is the mode and the
rest are key:value sections. -/
def parseStatus (line : Str) : Status :=
  if startsWithStr (str "<") line ∧ endsWithStr (str ">") line then
    let content := (line.drop 1).dropLast
    let sections := splitOnCh '|' content
    let st := { defaultStatus with rawStatus := line,
                                   mode := stripW (sections.headD []) }
    parseSections st (sections.drop 1)
  else { defaultStatus with rawStatus := line }

/-! Section: Error-code table (`src/fluidnc/utils.py:23-94`) -/

/-- The static `error_codes` table of `parse_error_code` (utils.py:33-84). -/
def errorCodes : List (Int × Str) :=
  [(1, str "Expected command letter"),
   (2, str "Bad number format"),
   (3, str "Invalid statement"),
   (4, str "Negative value"),
   (5, str "Setting disabled"),
   (6, str "Step pulse too short"),
   (7, str "Safety door detected"),
   (8, str "Non-numeric value"),
   (9, str "Unsupported statement"),
   (10, str "Unsupported command"),
   (11, str "Coordinate system cannot be changed"),
   (12, str "Unsupported coordinate system"),
   (13, str "G53 not allowed in current motion mode"),
   (14, str "Unsupported distance mode"),
   (15, str "Unsupported feed rate mode"),
   (16, str "Modal group violation"),
   (17, str "Undefined feed rate"),
   (18, str "Invalid line number"),
   (19, str "Value out of range"),
   (20, str "Command unavailable in alarm mode"),
   (21, str "Homing required"),
   (22, str "Axis must be homed"),
   (23, str "Values not enough"),
   (24, str "Values exceeded"),
   (25, str "Kinematics error"),
   (26, str "Not queuing"),
   (27, str "End of travel"),
   (28, str "Wait for motion mode"),
   (29, str "Bad delimeter"),
   (30, str "Bad axis"),
   (31, str "G0 or G1 not allowed"),
   (32, str "System is not ready"),
   (33, str "Value out of limit"),
   (34, str "PWM requires a laser"),
   (35, str "Setting is read only"),
   (36, str "Not running"),
   (37, str "Probe compensation"),
   (38, str "SD failed mount"),
   (39, str "SD failed read"),
   (40, str "SD failed open dir"),
   (41, str "SD dir not found"),
   (42, str "SD file empty"),
   (43, str "SD file read only"),
   (44, str "SD card changed"),
   (45, str "Shutdown"),
   (46, str "Test failed"),
   (47, str "Authentication failed"),
   (48, str "Hard limit"),
   (60, str "File not found"),
   (61, str "Buffer full")]

/-- `error_codes.get(code, "Unknown error")` (utils.py:89). -/
def lookupCode : List (Int × Str) → Int → Option Str
  | [], _ => none
  | (k, d) :: rest, c => if c = k then some d else lookupCode rest c

/-- `parse_error_code` (utils.py:23-94): a message with prefix `error:` has
its second colon-separated field stripped and converted with `int`; on
success the table supplies the description (default `"Unknown error"`); any
`IndexError`/`ValueError` falls through to `(0, error_msg)`, as does a
message without the prefix.  Total for every input, as the Python function
catches everything its body can raise. -/
def parseErrorCode (msg : Str) : Int × Str :=
  if startsWithStr (str "error:") msg then
    match (splitOnCh ':' msg).get? 1 with
    | some part =>
      match pyInt? (stripW part) with
      | some code =>
        (code, (lookupCode errorCodes code).getD (str "Unknown error"))
      | none => (0, msg)
    | none => (0, msg)
  else (0, msg)

/-! Section: Helper lemmas -/

theorem startsWithStr_append (p s : Str) : startsWithStr p (p ++ s) = true := by
  induction p with
  | nil => rfl
  | cons c cs ih => simp [startsWithStr, ih]

theorem splitOnCh_ne_nil (sep : Char) (s : Str) : splitOnCh sep s ≠ [] := by
  cases s with
  | nil => simp [splitOnCh]
  | cons c rest =>
    unfold splitOnCh
    by_cases h : c = sep
    · simp [h]
    · simp only [if_neg h]
      cases splitOnCh sep rest <;> simp

theorem splitOnCh_no_sep (sep : Char) (s : Str) (h : ∀ c ∈ s, c ≠ sep) :
    splitOnCh sep s = [s] := by
  induction s with
  | nil => rfl
  | cons c rest ih =>
    have hc : c ≠ sep := h c (by simp)
    have ih' := ih (fun d hd => h d (by simp [hd]))
    simp [splitOnCh, hc, ih']

theorem splitOnCh_error_preamble (s : Str) (h : ∀ c ∈ s, c ≠ ':') :
    splitOnCh ':' (str "error:" ++ s) = [str "error", s] := by
  have h1 : splitOnCh ':' s = [s] := splitOnCh_no_sep ':' s h
  have he : str "error:" = 'e' :: 'r' :: 'r' :: 'o' :: 'r' :: ':' :: [] := rfl
  rw [he]
  simp only [List.cons_append, List.nil_append]
  simp [splitOnCh, h1]
  rfl

theorem pyWhitespace_of_digit (c : Char) (h : c.isDigit = true) :
    pyWhitespace c = false := by
  by_contra hw
  have hw' : pyWhitespace c = true := by
    cases hpw : pyWhitespace c
    · exact absurd hpw hw
    · rfl
  simp only [pyWhitespace, Bool.or_eq_true, decide_eq_true_eq] at hw'
  rcases hw' with ((((rfl | rfl) | rfl) | rfl) | rfl) | rfl <;>
    exact absurd h (by decide)

theorem dropWhile_ws_of_digits (s : Str) (h : ∀ c ∈ s, c.isDigit = true) :
    s.dropWhile pyWhitespace = s := by
  cases s with
  | nil => rfl
  | cons c rest =>
    have hc : pyWhitespace c = false := pyWhitespace_of_digit c (h c (by simp))
    simp [List.dropWhile, hc]

theorem stripW_of_digits (s : Str) (h : ∀ c ∈ s, c.isDigit = true) :
    stripW s = s := by
  have hrev : ∀ c ∈ s.reverse, c.isDigit = true := by
    intro c hc; exact h c (List.mem_reverse.mp hc)
  unfold stripW rstripW lstripW
  rw [dropWhile_ws_of_digits s.reverse hrev, List.reverse_reverse,
    dropWhile_ws_of_digits s h]

theorem pyInt?_of_digits (s : Str) (hne : s ≠ [])
    (h : ∀ c ∈ s, c.isDigit = true) : pyInt? s = some (natOfDigits s : Int) := by
  cases s with
  | nil => exact absurd rfl hne
  | cons c rest =>
    have hc : c.isDigit = true := h c (by simp)
    have hplus : c ≠ '+' := by rintro rfl; exact absurd hc (by decide)
    have hminus : c ≠ '-' := by rintro rfl; exact absurd hc (by decide)
    have hstrip := stripW_of_digits (c :: rest) h
    unfold pyInt?
    rw [hstrip]
    simp only [if_neg hplus, if_neg hminus, digitsVal?]
    rw [if_pos ⟨by simp, by simpa [List.all_eq_true] using h⟩]
    rfl

theorem lookupCode_of_not_mem (l : List (Int × Str)) (c : Int)
    (h : c ∉ l.map Prod.fst) : lookupCode l c = none := by
  induction l with
  | nil => rfl
  | cons kv rest ih =>
    simp only [List.map_cons, List.mem_cons] at h
    push_neg at h
    simp [lookupCode, h.1, ih h.2]

theorem drainPass_rxAvail (resps : List Str) (s : StreamState) :
    (drainPass s resps).rxAvail = s.rxAvail := by
  induction resps generalizing s with
  | nil => rfl
  | cons r rest ih =>
    unfold drainPass drainOne
    by_cases h : startsWithStr (str "ok") r = true
    · simp only [List.foldl_cons, if_pos h]
      exact ih _
    · simp only [List.foldl_cons, if_neg h]
      exact ih _

theorem drainPass_linesSent (resps : List Str) (s : StreamState) :
    (drainPass s resps).linesSent = s.linesSent := by
  induction resps generalizing s with
  | nil => rfl
  | cons r rest ih =>
    unfold drainPass drainOne
    by_cases h : startsWithStr (str "ok") r = true
    · simp only [List.foldl_cons, if_pos h]
      exact ih _
    · simp only [List.foldl_cons, if_neg h]
      exact ih _

theorem plannerInv_admitLine (s : StreamState) (cmd : Str)
    (h : plannerCreditInvariant s) : plannerCreditInvariant (admitLine s cmd) := by
  unfold plannerCreditInvariant at h ⊢
  simp only [admitLine, List.length_append, List.length_cons, List.length_nil]
  push_cast
  linarith

theorem plannerInv_sendPass (q : List Str) (s : StreamState)
    (h : plannerCreditInvariant s) : plannerCreditInvariant (sendPass s q).1 := by
  induction q generalizing s with
  | nil => exact h
  | cons cmd rest ih =>
    unfold sendPass
    by_cases hg : (commandSize cmd : Int) ≤ s.rxAvail ∧ 0 < s.plannerAvail
    · simp only [if_pos hg]
      exact ih (admitLine s cmd) (plannerInv_admitLine s cmd h)
    · simp only [if_neg hg]
      exact h

theorem countOk_cons (r : Str) (rest : List Str) :
    countOk (r :: rest) =
      (if startsWithStr (str "ok") r = true then 1 else 0) + countOk rest := by
  unfold countOk
  by_cases h : startsWithStr (str "ok") r = true
  · simp [List.filter, h]
    omega
  · simp [List.filter, h]

theorem plannerInv_drainPass (resps : List Str) (s : StreamState)
    (h : plannerCreditInvariant s) (hcnt : countOk resps ≤ s.inFlight.length) :
    plannerCreditInvariant (drainPass s resps) := by
  induction resps generalizing s with
  | nil => exact h
  | cons r rest ih =>
    rw [countOk_cons] at hcnt
    unfold drainPass drainOne
    by_cases hok : startsWithStr (str "ok") r = true
    · simp only [List.foldl_cons, if_pos hok]
      rw [if_pos hok] at hcnt
      have hlen : 1 ≤ s.inFlight.length := le_trans (by omega) hcnt
      have hne : s.inFlight ≠ [] := by
        intro hnil; rw [hnil] at hlen; simp at hlen
      refine ih _ ?_ ?_
      · unfold plannerCreditInvariant at h ⊢
        simp only [List.length_tail]
        omega
      · simp only [List.length_tail]
        omega
    · simp only [List.foldl_cons, if_neg hok]
      rw [if_neg hok] at hcnt
      exact ih _ h (by omega)

theorem drainPass_all_non_ok (resps : List Str) (s : StreamState)
    (h : ∀ r ∈ resps, startsWithStr (str "ok") r = false) :
    drainPass s resps = s := by
  induction resps generalizing s with
  | nil => rfl
  | cons r rest ih =>
    have hr : startsWithStr (str "ok") r = false := h r (by simp)
    unfold drainPass drainOne
    simp only [List.foldl_cons, hr, Bool.false_eq_true, if_false]
    exact ih s (fun x hx => h x (by simp [hx]))

theorem drainPass_linesConfirmed (resps : List Str) (s : StreamState) :
    (drainPass s resps).linesConfirmed = s.linesConfirmed + countOk resps := by
  induction resps generalizing s with
  | nil => simp [drainPass, countOk]
  | cons r rest ih =>
    rw [countOk_cons]
    have hstep : drainPass s (r :: rest) = drainPass (drainOne s r) rest := rfl
    rw [hstep, ih]
    unfold drainOne
    by_cases hok : startsWithStr (str "ok") r = true
    · simp only [if_pos hok]
      omega
    · simp only [if_neg hok]
      omega

theorem parsePosAux_ge3 (comps : List Str) :
    ∀ (i : Nat) (r : ℚ × ℚ × ℚ), 3 ≤ i → parsePosAux i comps r = r := by
  induction comps with
  | nil => intro i r _; rfl
  | cons v rest ih =>
    intro i r hi
    unfold parsePosAux
    have hlt : ¬ i < 3 := by omega
    simp only [if_neg hlt]
    exact ih (i + 1) r (by omega)

theorem parsePosition_components (s : Str) :
    parsePosition s =
      ((((splitOnCh ',' s).get? 0).bind pyFloat?).getD 0,
       (((splitOnCh ',' s).get? 1).bind pyFloat?).getD 0,
       (((splitOnCh ',' s).get? 2).bind pyFloat?).getD 0) := by
  unfold parsePosition
  generalize splitOnCh ',' s = comps
  have h3 : ∀ (comps : List Str) (r : ℚ × ℚ × ℚ), parsePosAux 3 comps r = r :=
    fun comps r => parsePosAux_ge3 comps 3 r (le_refl 3)
  rcases comps with _ | ⟨v0, _ | ⟨v1, _ | ⟨v2, rest⟩⟩⟩
  · rfl
  · rcases hv0 : pyFloat? v0 with _ | q0 <;>
      simp [parsePosAux, setAxis, hv0]
  · rcases hv0 : pyFloat? v0 with _ | q0 <;>
      rcases hv1 : pyFloat? v1 with _ | q1 <;>
      simp [parsePosAux, setAxis, hv0, hv1]
  · rcases hv0 : pyFloat? v0 with _ | q0 <;>
      rcases hv1 : pyFloat? v1 with _ | q1 <;>
      rcases hv2 : pyFloat? v2 with _ | q2 <;>
      simp [parsePosAux, setAxis, hv0, hv1, hv2, h3]

theorem applyFS_preserves (st : Status) (v : Str) :
    (applyFS st v).machinePosition = st.machinePosition ∧
    (applyFS st v).workPosition = st.workPosition ∧
    (applyFS st v).workCoordinateOffset = st.workCoordinateOffset ∧
    (applyFS st v).bufferPlanner = st.bufferPlanner ∧
    (applyFS st v).bufferRx = st.bufferRx := by
  rcases h0 : (splitOnCh ',' v)[0]? with _ | v0
  · rcases h1 : (splitOnCh ',' v)[1]? with _ | v1
    · simp [applyFS, h0, h1]
    · rcases hf1 : pyFloat? v1 with _ | q1 <;> simp [applyFS, h0, h1, hf1]
  · rcases h1 : (splitOnCh ',' v)[1]? with _ | v1
    · rcases hf0 : pyFloat? v0 with _ | q0 <;> simp [applyFS, h0, h1, hf0]
    · rcases hf0 : pyFloat? v0 with _ | q0 <;>
        rcases hf1 : pyFloat? v1 with _ | q1 <;>
        simp [applyFS, h0, h1, hf0, hf1]

theorem applyBf_preserves (st : Status) (v : Str) :
    (applyBf st v).machinePosition = st.machinePosition ∧
    (applyBf st v).workPosition = st.workPosition ∧
    (applyBf st v).workCoordinateOffset = st.workCoordinateOffset := by
  rcases h0 : (splitOnCh ',' v)[0]? with _ | v0
  · rcases h1 : (splitOnCh ',' v)[1]? with _ | v1 <;> simp [applyBf, h0, h1]
  · rcases h1 : (splitOnCh ',' v)[1]? with _ | v1
    · simp [applyBf, h0, h1]
    · rcases hf0 : pyInt? v0 with _ | p
      · simp [applyBf, h0, h1, hf0]
      · rcases hf1 : pyInt? v1 with _ | r <;> simp [applyBf, h0, h1, hf0, hf1]

theorem applyOv_preserves (st : Status) (v : Str) :
    (applyOv st v).machinePosition = st.machinePosition ∧
    (applyOv st v).workPosition = st.workPosition ∧
    (applyOv st v).workCoordinateOffset = st.workCoordinateOffset ∧
    (applyOv st v).bufferPlanner = st.bufferPlanner ∧
    (applyOv st v).bufferRx = st.bufferRx := by
  rcases h0 : (splitOnCh ',' v)[0]? with _ | v0 <;>
    rcases h1 : (splitOnCh ',' v)[1]? with _ | v1 <;>
    rcases h2 : (splitOnCh ',' v)[2]? with _ | v2
  case some.some.some =>
    rcases hf0 : pyInt? v0 with _ | a
    · simp [applyOv, h0, h1, h2, hf0]
    rcases hf1 : pyInt? v1 with _ | b
    · simp [applyOv, h0, h1, h2, hf0, hf1]
    rcases hf2 : pyInt? v2 with _ | c <;>
      simp [applyOv, h0, h1, h2, hf0, hf1, hf2]
  all_goals simp [applyOv, h0, h1, h2]

theorem applySection_buffers (st : Status) (sec : Str)
    (h : sectionKey sec ≠ some (str "Bf")) :
    (applySection st sec).bufferPlanner = st.bufferPlanner ∧
    (applySection st sec).bufferRx = st.bufferRx := by
  by_cases hsec : sec = []
  · simp [applySection, hsec]
  rcases hsp : splitOnceCh ':' sec with _ | ⟨k, v⟩
  · simp [applySection, hsec, hsp]
  have hred : applySection st sec = applyKeyValue st k v := by
    simp [applySection, hsec, hsp]
  rw [hred]
  unfold applyKeyValue
  have hk : k ≠ str "Bf" := by
    intro he
    exact h (by simp [sectionKey, hsp, he])
  have hfs := applyFS_preserves st v
  have hov := applyOv_preserves st v
  by_cases h1 : k = str "MPos"
  · rw [if_pos h1]; exact ⟨rfl, rfl⟩
  rw [if_neg h1]
  by_cases h2 : k = str "WPos"
  · rw [if_pos h2]; exact ⟨rfl, rfl⟩
  rw [if_neg h2]
  by_cases h3 : k = str "WCO"
  · rw [if_pos h3]; exact ⟨rfl, rfl⟩
  rw [if_neg h3]
  by_cases h4 : k = str "FS"
  · rw [if_pos h4]; exact ⟨hfs.2.2.2.1, hfs.2.2.2.2⟩
  rw [if_neg h4, if_neg hk]
  by_cases h6 : k = str "Pn"
  · rw [if_pos h6]; exact ⟨rfl, rfl⟩
  rw [if_neg h6]
  by_cases h7 : k = str "Ov"
  · rw [if_pos h7]; exact ⟨hov.2.2.2.1, hov.2.2.2.2⟩
  rw [if_neg h7]
  exact ⟨rfl, rfl⟩

theorem parseSections_buffers (sections : List Str) (st : Status)
    (h : ∀ sec ∈ sections, sectionKey sec ≠ some (str "Bf")) :
    (parseSections st sections).bufferPlanner = st.bufferPlanner ∧
    (parseSections st sections).bufferRx = st.bufferRx := by
  induction sections generalizing st with
  | nil => exact ⟨rfl, rfl⟩
  | cons sec rest ih =>
    have hstep : parseSections st (sec :: rest) =
        parseSections (applySection st sec) rest := rfl
    rw [hstep]
    obtain ⟨hp, hr⟩ := applySection_buffers st sec (h sec (by simp))
    obtain ⟨hp', hr'⟩ := ih (applySection st sec)
      (fun x hx => h x (by simp [hx]))
    exact ⟨hp'.trans hp, hr'.trans hr⟩

theorem applySection_positions (st : Status) (sec : Str)
    (h : sectionKey sec ≠ some (str "MPos") ∧
         sectionKey sec ≠ some (str "WPos") ∧
         sectionKey sec ≠ some (str "WCO")) :
    (applySection st sec).machinePosition = st.machinePosition ∧
    (applySection st sec).workPosition = st.workPosition ∧
    (applySection st sec).workCoordinateOffset = st.workCoordinateOffset := by
  by_cases hsec : sec = []
  · simp [applySection, hsec]
  rcases hsp : splitOnceCh ':' sec with _ | ⟨k, v⟩
  · simp [applySection, hsec, hsp]
  have hred : applySection st sec = applyKeyValue st k v := by
    simp [applySection, hsec, hsp]
  rw [hred]
  unfold applyKeyValue
  have hk1 : k ≠ str "MPos" := by
    intro he; exact h.1 (by simp [sectionKey, hsp, he])
  have hk2 : k ≠ str "WPos" := by
    intro he; exact h.2.1 (by simp [sectionKey, hsp, he])
  have hk3 : k ≠ str "WCO" := by
    intro he; exact h.2.2 (by simp [sectionKey, hsp, he])
  have hfs := applyFS_preserves st v
  have hbf := applyBf_preserves st v
  have hov := applyOv_preserves st v
  rw [if_neg hk1, if_neg hk2, if_neg hk3]
  by_cases h4 : k = str "FS"
  · rw [if_pos h4]; exact ⟨hfs.1, hfs.2.1, hfs.2.2.1⟩
  rw [if_neg h4]
  by_cases h5 : k = str "Bf"
  · rw [if_pos h5]; exact ⟨hbf.1, hbf.2.1, hbf.2.2⟩
  rw [if_neg h5]
  by_cases h6 : k = str "Pn"
  · rw [if_pos h6]; exact ⟨rfl, rfl, rfl⟩
  rw [if_neg h6]
  by_cases h7 : k = str "Ov"
  · rw [if_pos h7]; exact ⟨hov.1, hov.2.1, hov.2.2.1⟩
  rw [if_neg h7]
  exact ⟨rfl, rfl, rfl⟩

theorem parseSections_positions (sections : List Str) (st : Status)
    (h : ∀ sec ∈ sections, sectionKey sec ≠ some (str "MPos") ∧
         sectionKey sec ≠ some (str "WPos") ∧
         sectionKey sec ≠ some (str "WCO")) :
    (parseSections st sections).machinePosition = st.machinePosition ∧
    (parseSections st sections).workPosition = st.workPosition ∧
    (parseSections st sections).workCoordinateOffset =
      st.workCoordinateOffset := by
  induction sections generalizing st with
  | nil => exact ⟨rfl, rfl, rfl⟩
  | cons sec rest ih =>
    have hstep : parseSections st (sec :: rest) =
        parseSections (applySection st sec) rest := rfl
    rw [hstep]
    obtain ⟨hm, hw, hc⟩ := applySection_positions st sec (h sec (by simp))
    obtain ⟨hm', hw', hc'⟩ := ih (applySection st sec)
      (fun x hx => h x (by simp [hx]))
    exact ⟨hm'.trans hm, hw'.trans hw, hc'.trans hc⟩

theorem applyFS_malformed_head (st : Status) (value v0 : Str) (rest : List Str)
    (hsplit : splitOnCh ',' value = v0 :: rest) (hv0 : pyFloat? v0 = none) :
    (applyFS st value).feedRate = st.feedRate := by
  cases rest with
  | nil => simp [applyFS, hsplit, hv0]
  | cons v1 rest2 =>
    rcases hv1 : pyFloat? v1 with _ | q1 <;> simp [applyFS, hsplit, hv0, hv1]

theorem applyBf_malformed_head (st : Status) (value v0 v1 : Str)
    (rest : List Str) (hsplit : splitOnCh ',' value = v0 :: v1 :: rest)
    (hv0 : pyInt? v0 = none) : applyBf st value = st := by
  unfold applyBf
  rw [hsplit]
  simp [hv0]

theorem applyFS_components (st : Status) (value : Str) :
    (applyFS st value).feedRate =
      (((splitOnCh ',' value).get? 0).bind pyFloat?).getD st.feedRate ∧
    (applyFS st value).spindleSpeed =
      (((splitOnCh ',' value).get? 1).bind pyFloat?).getD st.spindleSpeed := by
  rcases h0 : (splitOnCh ',' value)[0]? with _ | v0
  · rcases h1 : (splitOnCh ',' value)[1]? with _ | v1
    · simp [applyFS, h0, h1]
    · rcases hf1 : pyFloat? v1 with _ | q1 <;> simp [applyFS, h0, h1, hf1]
  · rcases h1 : (splitOnCh ',' value)[1]? with _ | v1
    · rcases hf0 : pyFloat? v0 with _ | q0 <;> simp [applyFS, h0, h1, hf0]
    · rcases hf0 : pyFloat? v0 with _ | q0 <;>
        rcases hf1 : pyFloat? v1 with _ | q1 <;>
        simp [applyFS, h0, h1, hf0, hf1]

theorem applyBf_malformed_second (st : Status) (value v0 v1 : Str)
    (rest : List Str) (p : Int)
    (hsplit : splitOnCh ',' value = v0 :: v1 :: rest)
    (hv0 : pyInt? v0 = some p) (hv1 : pyInt? v1 = none) :
    applyBf st value = { st with bufferPlanner := p } := by
  simp [applyBf, hsplit, hv0, hv1]

theorem applyOv_malformed_first (st : Status) (value v0 v1 v2 : Str)
    (rest : List Str) (hsplit : splitOnCh ',' value = v0 :: v1 :: v2 :: rest)
    (hv0 : pyInt? v0 = none) : applyOv st value = st := by
  simp [applyOv, hsplit, hv0]

theorem applyOv_malformed_second (st : Status) (value v0 v1 v2 : Str)
    (rest : List Str) (a : Int)
    (hsplit : splitOnCh ',' value = v0 :: v1 :: v2 :: rest)
    (hv0 : pyInt? v0 = some a) (hv1 : pyInt? v1 = none) :
    applyOv st value = { st with overrideFeed := a } := by
  simp [applyOv, hsplit, hv0, hv1]

theorem applyOv_malformed_third (st : Status) (value v0 v1 v2 : Str)
    (rest : List Str) (a b : Int)
    (hsplit : splitOnCh ',' value = v0 :: v1 :: v2 :: rest)
    (hv0 : pyInt? v0 = some a) (hv1 : pyInt? v1 = some b)
    (hv2 : pyInt? v2 = none) :
    applyOv st value = { st with overrideFeed := a, overrideRapid := b } := by
  simp [applyOv, hsplit, hv0, hv1, hv2]

/-! Section: Claim theorems -/

/-- C1, counterexample: in a fault-free buffered session that sends the
5-byte line `G0 X0` (cost 7) and then retires its `ok`, the rx credit is not
restored: the rx half of the credit invariant holds after the send but is
violated after the acknowledgment, because the drain loop
(advanced_streamer.py:434-440) returns only a planner slot. -/
theorem ack_does_not_restore_rx_credit :
    rxCreditInvariant (sendPass initStream [str "G0 X0"]).1 ∧
    ¬ rxCreditInvariant
        (drainPass (sendPass initStream [str "G0 X0"]).1 [str "ok"]) := by
  constructor
  · decide
  · decide

/-- C1 (amended): during the main send/drain loop of a buffered session
(absent faults, i.e. no more `ok` lines than in-flight commands, and absent
`Bf`-based resynchronization), the planner half of the invariant
`planner_credit + |in_flight| == PLANNER_BUFFER_SIZE` is preserved, and
retiring an acknowledgment restores exactly one planner slot while leaving
the rx credit unchanged — the acknowledged line's byte cost is never
returned to the rx credit. -/
theorem planner_credit_invariant_main_loop :
    ∀ (s : StreamState) (q resps : List Str),
      plannerCreditInvariant s →
      countOk resps ≤ ((sendPass s q).1).inFlight.length →
      plannerCreditInvariant (drainPass (sendPass s q).1 resps) ∧
      (drainPass (sendPass s q).1 resps).rxAvail = (sendPass s q).1.rxAvail ∧
      (∀ (s2 : StreamState) (r : Str), startsWithStr (str "ok") r = true →
        (drainOne s2 r).plannerAvail = s2.plannerAvail + 1 ∧
        (drainOne s2 r).rxAvail = s2.rxAvail ∧
        (drainOne s2 r).inFlight = s2.inFlight.tail) := by
  intro s q resps h hcnt
  refine ⟨plannerInv_drainPass resps _ (plannerInv_sendPass q s h) hcnt,
    drainPass_rxAvail resps _, ?_⟩
  intro s2 r hok
  unfold drainOne
  simp [hok]

/-- Witness for `planner_credit_invariant_main_loop` at a concrete session. -/
theorem planner_credit_invariant_main_loop_witness :
    plannerCreditInvariant
      (drainPass (sendPass initStream [str "G0 X0"]).1 [str "ok"]) ∧
    (drainPass (sendPass initStream [str "G0 X0"]).1 [str "ok"]).rxAvail =
      (sendPass initStream [str "G0 X0"]).1.rxAvail :=
  ⟨(planner_credit_invariant_main_loop initStream [str "G0 X0"] [str "ok"]
      (by decide) (by decide)).1,
   (planner_credit_invariant_main_loop initStream [str "G0 X0"] [str "ok"]
      (by decide) (by decide)).2.1⟩

/-- C2, counterexample: after admitting `G0 X0`, a received `error:9` line is
completely ignored by the drain loop (advanced_streamer.py:434-440): the
state is unchanged (the oldest in-flight command is not retired, nothing is
raised) and the next candidate line is still admitted — streaming continues
past the rejected line. -/
theorem error_line_ignored_counterexample :
    drainPass (sendPass initStream [str "G0 X0"]).1 [str "error:9"] =
      (sendPass initStream [str "G0 X0"]).1 ∧
    (sendPass (drainPass (sendPass initStream [str "G0 X0"]).1 [str "error:9"])
        [str "G1 X1"]).2.1 = [str "G1 X1"] := by
  constructor
  · decide
  · decide

/-- C2 (amended): the drain loop of a buffered session reacts only to lines
beginning with `ok`: a batch with no `ok` line — in particular one of
`error:` lines — leaves the state untouched (no in-flight command retired,
no fault raised, streaming continues), and in general exactly the `ok` lines
are counted as confirmations while `lines_sent` is unaffected. -/
theorem drain_retires_only_ok_lines :
    (∀ (s : StreamState) (resps : List Str),
      (∀ r ∈ resps, startsWithStr (str "ok") r = false) →
      drainPass s resps = s) ∧
    (∀ (s : StreamState) (resps : List Str),
      (drainPass s resps).linesConfirmed = s.linesConfirmed + countOk resps ∧
      (drainPass s resps).linesSent = s.linesSent) :=
  ⟨fun s resps h => drainPass_all_non_ok resps s h,
   fun s resps => ⟨drainPass_linesConfirmed resps s, drainPass_linesSent resps s⟩⟩

/-- Witness for `drain_retires_only_ok_lines` at concrete inputs. -/
theorem drain_retires_only_ok_lines_witness :
    drainPass initStream [str "error:9"] = initStream ∧
    (drainPass initStream [str "ok"]).linesConfirmed =
      initStream.linesConfirmed + countOk [str "ok"] :=
  ⟨drain_retires_only_ok_lines.1 initStream [str "error:9"] (by decide),
   (drain_retires_only_ok_lines.2 initStream [str "ok"]).1⟩

/-- C4: in every state of a buffered session (reachable or not), the head
candidate of the queue is admitted — written and recorded in flight — only
when its byte cost `len(line) + 2` is at most the rx credit and the planner
credit is positive; violating either constraint stops the send pass with
nothing admitted, and an admission decrements the rx credit by exactly the
cost and the planner credit by exactly one. -/
theorem admission_requires_both_credits :
    ∀ (s : StreamState) (cmd : Str) (rest : List Str),
      ((s.rxAvail < (commandSize cmd : Int) ∨ s.plannerAvail ≤ 0) →
        sendPass s (cmd :: rest) = (s, [], cmd :: rest)) ∧
      ((commandSize cmd : Int) ≤ s.rxAvail → 0 < s.plannerAvail →
        sendPass s (cmd :: rest) =
          ((sendPass (admitLine s cmd) rest).1,
           cmd :: (sendPass (admitLine s cmd) rest).2.1,
           (sendPass (admitLine s cmd) rest).2.2) ∧
        (admitLine s cmd).rxAvail = s.rxAvail - commandSize cmd ∧
        (admitLine s cmd).plannerAvail = s.plannerAvail - 1 ∧
        (admitLine s cmd).inFlight = s.inFlight ++ [commandSize cmd] ∧
        (admitLine s cmd).linesSent = s.linesSent + 1) := by
  intro s cmd rest
  constructor
  · intro hviol
    have hneg : ¬((commandSize cmd : Int) ≤ s.rxAvail ∧ 0 < s.plannerAvail) := by
      rcases hviol with h1 | h2
      · intro hc; linarith [hc.1]
      · intro hc; linarith [hc.2]
    unfold sendPass
    simp [if_neg hneg]
  · intro h1 h2
    refine ⟨?_, rfl, rfl, rfl, rfl⟩
    rw [sendPass, if_pos (And.intro h1 h2)]

/-- Witness for `admission_requires_both_credits`: a line too long for the
rx credit is rejected, a line with no free planner slot is rejected, and an
admissible line at session start is admitted with both credits decremented. -/
theorem admission_requires_both_credits_witness :
    sendPass ⟨3, 5, [], 0, 0⟩ [str "G0 X0"] = (⟨3, 5, [], 0, 0⟩, [], [str "G0 X0"]) ∧
    sendPass ⟨100, 0, [], 0, 0⟩ [str "G0 X0"] =
      (⟨100, 0, [], 0, 0⟩, [], [str "G0 X0"]) ∧
    (admitLine initStream (str "G0 X0")).rxAvail =
      initStream.rxAvail - commandSize (str "G0 X0") ∧
    (admitLine initStream (str "G0 X0")).plannerAvail = initStream.plannerAvail - 1 :=
  ⟨(admission_requires_both_credits ⟨3, 5, [], 0, 0⟩ (str "G0 X0") []).1
      (Or.inl (by decide)),
   (admission_requires_both_credits ⟨100, 0, [], 0, 0⟩ (str "G0 X0") []).1
      (Or.inr (by decide)),
   ((admission_requires_both_credits initStream (str "G0 X0") []).2
      (by decide) (by decide)).2.1,
   ((admission_requires_both_credits initStream (str "G0 X0") []).2
      (by decide) (by decide)).2.2.1⟩

/-- C3 (code-bug evidence): `write` only appends a newline when the data does
not already end with one (connection.py:119-123), so an input ending in
`\r\n` — exactly what `FluidNCStreamer.reset` passes (streamer.py:95-97) —
is emitted unchanged and the wire bytes end in CRLF, which the code's own
comment says must never happen. -/
theorem write_passes_crlf_through :
    writeData (str "\r\n") = str "\r\n" ∧
    endsWithStr (str "\r\n") (writeData (str "\r\n")) = true ∧
    writeData (str "G0 X0\r\n") = str "G0 X0\r\n" := by
  refine ⟨?_, ?_, ?_⟩ <;> decide

/-- C7, counterexample: sending the immediate status request `?` through the
dispatcher writes `?\n` — the control character with a newline terminator
appended by `write` — not the bare character `?` the claim requires. -/
theorem immediate_command_gets_newline :
    sendCommandS (str "?") true ⟨[], [str "<Idle>"]⟩ =
      some (str "<Idle>", ⟨[str "?\n"], []⟩) ∧
    str "?\n" ≠ str "?" := by
  constructor
  · decide
  · decide

/-- C7 (amended): for every immediate command (`?`, `!`, `~`), both
dispatchers write the command with a single newline terminator appended by
the transport's `write`, then return the single next reply line (stripped)
without waiting for an `ok`/`error` terminator — identically for both values
of the wait-for-ack flag. -/
theorem immediate_commands_single_reply :
    ∀ (w : Bool) (t : Transport) (cmd : Str), cmd ∈ immediateCommands →
      sendCommandS cmd w t =
        some (stripW (t.input.headD []),
          { written := t.written ++ [cmd ++ str "\n"], input := t.input.tail }) ∧
      sendCommandA cmd w t =
        some (stripW (t.input.headD []),
          { written := t.written ++ [cmd ++ str "\n"], input := t.input.tail }) := by
  intro w t cmd hmem
  rcases t with ⟨written, input⟩
  simp only [immediateCommands, List.mem_cons, List.mem_singleton,
    List.not_mem_nil, or_false] at hmem
  rcases hmem with rfl | rfl | rfl <;> cases input <;> exact ⟨rfl, rfl⟩

/-- Witness for `immediate_commands_single_reply`: feed hold on an empty
input queue. -/
theorem immediate_commands_single_reply_witness :
    sendCommandS (str "!") false ⟨[], []⟩ = some ([], ⟨[str "!\n"], []⟩) ∧
    sendCommandA (str "~") true ⟨[], [str "ok"]⟩ =
      some (str "ok", ⟨[str "~\n"], []⟩) :=
  ⟨(immediate_commands_single_reply false ⟨[], []⟩ (str "!") (by decide)).1,
   (immediate_commands_single_reply true ⟨[], [str "ok"]⟩ (str "~") (by decide)).2⟩

/-- C10: sending the empty command returns the empty string at once and
leaves the transport untouched — nothing written, nothing read — for both
dispatchers and both values of the wait-for-ack flag
(streamer.py:110-111, advanced_streamer.py:200-201). -/
theorem empty_command_is_noop :
    ∀ (w : Bool) (t : Transport),
      sendCommandS (str "") w t = some ([], t) ∧
      sendCommandA (str "") w t = some ([], t) := by
  intro w t
  exact ⟨rfl, rfl⟩

/-- `open` ends connected exactly when it does not raise, starting from an
unconnected state (connection.py:25-57): `_connected` is assigned only after
the handshake validates, so every raising path leaves it `False`. -/
theorem openConn_connected (s : ConnState) (e : OpenEnv)
    (h : s.connected = false) :
    ((openConn s e).2 = none → (openConn s e).1.connected = true) ∧
    ((openConn s e).2 ≠ none → (openConn s e).1.connected = false) := by
  unfold openConn openAtPort
  rw [h]
  cases hport : s.port with
  | none =>
    cases hdet : e.detectedPorts with
    | nil => simp [h]
    | cons p ps =>
      cases hso : e.serialOpenOk <;> cases hct : e.commTestOk <;> simp [h]
  | some p =>
    cases hso : e.serialOpenOk <;> cases hct : e.commTestOk <;> simp [h]

/-- C9: starting unconnected, `connect` never propagates the exception from
`open`: it returns `True` exactly when `open` succeeds (and the connection
is then connected) and `False` when `open` raises (and the connection is
left unconnected), the post-state being whatever `open` left behind
(streamer.py:59-71, advanced_streamer.py:71-83). -/
theorem connect_reports_open_outcome :
    ∀ (s : ConnState) (e : OpenEnv), s.connected = false →
      ((connectS s e).1 = true ↔ (openConn s e).2 = none) ∧
      (connectS s e).2 = (openConn s e).1 ∧
      ((connectS s e).1 = false → (connectS s e).2.connected = false) ∧
      ((connectS s e).1 = true → (connectS s e).2.connected = true) := by
  intro s e h
  obtain ⟨hc1, hc2⟩ := openConn_connected s e h
  rcases hopen : openConn s e with ⟨s', err⟩
  rw [hopen] at hc1 hc2
  have hcs : connectS s e =
      match (s', err) with
      | (s', none) => (true, s')
      | (s', some _) => (false, s') := by
    unfold connectS
    rw [hopen]
  cases err with
  | none =>
    simp only at hcs
    rw [hcs]
    exact ⟨by simp, rfl, by simp, fun _ => hc1 rfl⟩
  | some msg =>
    simp only at hcs
    rw [hcs]
    refine ⟨by simp, rfl, fun _ => hc2 (by simp), by simp⟩

/-- Witness for `connect_reports_open_outcome`: a failing handshake yields
`False` and an unconnected state; a clean open yields `True`. -/
theorem connect_reports_open_outcome_witness :
    (connectS ⟨none, false⟩ ⟨[str "p0"], true, false⟩).1 = false ∧
    (connectS ⟨none, false⟩ ⟨[str "p0"], true, false⟩).2.connected = false ∧
    (connectS ⟨none, false⟩ ⟨[str "p0"], true, true⟩).1 = true ∧
    (connectS ⟨none, false⟩ ⟨[str "p0"], true, true⟩).2.connected = true :=
  ⟨by decide,
   (connect_reports_open_outcome ⟨none, false⟩ ⟨[str "p0"], true, false⟩
      rfl).2.2.1 (by decide),
   by decide,
   (connect_reports_open_outcome ⟨none, false⟩ ⟨[str "p0"], true, true⟩
      rfl).2.2.2 (by decide)⟩

/-- C5, counterexample: decoding `<Idle>` — a status line whose envelope
omits `Bf` — yields buffer counts planner-free = 0 and rx-free = 0, the
dataclass defaults of status.py:48-49, not the configured maxima 32/127. -/
theorem status_without_bf_counterexample :
    (parseStatus (str "<Idle>")).bufferPlanner = 0 ∧
    (parseStatus (str "<Idle>")).bufferRx = 0 ∧
    ¬((parseStatus (str "<Idle>")).bufferPlanner = PLANNER_BUFFER_SIZE ∧
      (parseStatus (str "<Idle>")).bufferRx = RX_BUFFER_SIZE) := by
  refine ⟨?_, ?_, ?_⟩ <;> decide

/-- C5 (amended): decoding a status line whose envelope omits the `Bf` field
yields planner-free and rx-free counts of 0 — the dataclass defaults, not
the configured maxima — and the position triples default to `(0,0,0)` when
their own fields (`MPos`/`WPos`/`WCO`) are also absent. -/
theorem status_without_bf_defaults_to_zero :
    ∀ (line : Str),
      startsWithStr (str "<") line = true →
      endsWithStr (str ">") line = true →
      (∀ sec ∈ (splitOnCh '|' ((line.drop 1).dropLast)).drop 1,
        sectionKey sec ≠ some (str "Bf")) →
      (parseStatus line).bufferPlanner = 0 ∧
      (parseStatus line).bufferRx = 0 ∧
      ((∀ sec ∈ (splitOnCh '|' ((line.drop 1).dropLast)).drop 1,
          sectionKey sec ≠ some (str "MPos") ∧
          sectionKey sec ≠ some (str "WPos") ∧
          sectionKey sec ≠ some (str "WCO")) →
        (parseStatus line).machinePosition = (0, 0, 0) ∧
        (parseStatus line).workPosition = (0, 0, 0) ∧
        (parseStatus line).workCoordinateOffset = (0, 0, 0)) := by
  intro line h1 h2 hbf
  have henv : parseStatus line = parseSections
      { defaultStatus with
          rawStatus := line
          mode := stripW ((splitOnCh '|' ((line.drop 1).dropLast)).headD []) }
      ((splitOnCh '|' ((line.drop 1).dropLast)).drop 1) := by
    unfold parseStatus
    rw [if_pos ⟨h1, h2⟩]
  rw [henv]
  obtain ⟨hp, hr⟩ := parseSections_buffers _ _ hbf
  refine ⟨hp, hr, ?_⟩
  intro hpos
  obtain ⟨hm, hw, hc⟩ := parseSections_positions _ _ hpos
  exact ⟨hm, hw, hc⟩

/-- Witness for `status_without_bf_defaults_to_zero` at the envelope
`<Run|FS:10,200>`, which omits `Bf` and all position fields. -/
theorem status_without_bf_defaults_to_zero_witness :
    (parseStatus (str "<Run|FS:10,200>")).bufferPlanner = 0 ∧
    (parseStatus (str "<Run|FS:10,200>")).bufferRx = 0 :=
  ⟨(status_without_bf_defaults_to_zero (str "<Run|FS:10,200>") (by decide)
      (by decide) (by decide)).1,
   (status_without_bf_defaults_to_zero (str "<Run|FS:10,200>") (by decide)
      (by decide) (by decide)).2.1⟩

/-- C6: status decoding is total by construction (`parseStatus` is a Lean
function — every Python exception site in `parse` is caught), and:
a line not matching the `<...>` envelope yields the default snapshot
carrying only the raw text with mode `Unknown`; sections with unknown keys,
or without a key at all, are ignored; and every malformed (non-numeric)
numeric component leaves its own field at its default, at every position of
every numeric family: position components are exactly the parsed floats
with absent or malformed components left at `0`; both `FS` components are
exactly the parsed floats with malformed ones leaving the field at its
previous value; a malformed first `Bf` component leaves both buffer fields
untouched, a malformed second leaves rx untouched while planner (already
assigned inside the same `try`) is set; `Ov` components abort at the first
malformed one, leaving it and every later field at their previous values. -/
theorem status_decode_defaults :
    (∀ line : Str,
      ¬(startsWithStr (str "<") line = true ∧
        endsWithStr (str ">") line = true) →
      parseStatus line = { defaultStatus with rawStatus := line } ∧
      (parseStatus line).mode = str "Unknown") ∧
    (∀ (st : Status) (sec k : Str), sectionKey sec = some k →
      k ∉ [str "MPos", str "WPos", str "WCO", str "FS", str "Bf", str "Pn",
           str "Ov"] →
      applySection st sec = st) ∧
    (∀ (st : Status) (sec : Str), splitOnceCh ':' sec = none →
      applySection st sec = st) ∧
    (∀ s : Str, parsePosition s =
      ((((splitOnCh ',' s).get? 0).bind pyFloat?).getD 0,
       (((splitOnCh ',' s).get? 1).bind pyFloat?).getD 0,
       (((splitOnCh ',' s).get? 2).bind pyFloat?).getD 0)) ∧
    (∀ (st : Status) (value v0 : Str) (rest : List Str),
      splitOnCh ',' value = v0 :: rest → pyFloat? v0 = none →
      (applyFS st value).feedRate = st.feedRate) ∧
    (∀ (st : Status) (value v0 v1 : Str) (rest : List Str),
      splitOnCh ',' value = v0 :: v1 :: rest → pyInt? v0 = none →
      applyBf st value = st) ∧
    (∀ (st : Status) (value : Str),
      (applyFS st value).feedRate =
        (((splitOnCh ',' value).get? 0).bind pyFloat?).getD st.feedRate ∧
      (applyFS st value).spindleSpeed =
        (((splitOnCh ',' value).get? 1).bind pyFloat?).getD st.spindleSpeed) ∧
    (∀ (st : Status) (value v0 v1 : Str) (rest : List Str) (p : Int),
      splitOnCh ',' value = v0 :: v1 :: rest → pyInt? v0 = some p →
      pyInt? v1 = none →
      applyBf st value = { st with bufferPlanner := p }) ∧
    (∀ (st : Status) (value v0 v1 v2 : Str) (rest : List Str),
      splitOnCh ',' value = v0 :: v1 :: v2 :: rest → pyInt? v0 = none →
      applyOv st value = st) ∧
    (∀ (st : Status) (value v0 v1 v2 : Str) (rest : List Str) (a : Int),
      splitOnCh ',' value = v0 :: v1 :: v2 :: rest → pyInt? v0 = some a →
      pyInt? v1 = none →
      applyOv st value = { st with overrideFeed := a }) ∧
    (∀ (st : Status) (value v0 v1 v2 : Str) (rest : List Str) (a b : Int),
      splitOnCh ',' value = v0 :: v1 :: v2 :: rest → pyInt? v0 = some a →
      pyInt? v1 = some b → pyInt? v2 = none →
      applyOv st value = { st with overrideFeed := a, overrideRapid := b }) := by
  refine ⟨?_, ?_, ?_, parsePosition_components, applyFS_malformed_head,
    applyBf_malformed_head, applyFS_components, applyBf_malformed_second,
    applyOv_malformed_first, applyOv_malformed_second, applyOv_malformed_third⟩
  · intro line h
    unfold parseStatus
    rw [if_neg h]
    exact ⟨rfl, rfl⟩
  · intro st sec k hk hmem
    have hsec : sec ≠ [] := by
      rintro rfl
      simp [sectionKey, splitOnceCh] at hk
    rcases hsp0 : splitOnceCh ':' sec with _ | ⟨k2, v⟩
    · simp [applySection, hsec, hsp0]
    have hk2 : k2 = k := by
      simp [sectionKey, hsp0] at hk
      exact hk
    subst hk2
    simp only [List.mem_cons, List.not_mem_nil, or_false, not_or] at hmem
    obtain ⟨n1, n2, n3, n4, n5, n6, n7⟩ := hmem
    have hred : applySection st sec = applyKeyValue st k2 v := by
      simp [applySection, hsec, hsp0]
    rw [hred]
    unfold applyKeyValue
    rw [if_neg n1, if_neg n2, if_neg n3, if_neg n4, if_neg n5, if_neg n6,
      if_neg n7]
  · intro st sec hsp
    by_cases hsec : sec = []
    · simp [applySection, hsec]
    · simp [applySection, hsec, hsp]

/-- Witness for `status_decode_defaults` at concrete inputs, exercising a
malformed component at every position of every numeric family. -/
theorem status_decode_defaults_witness :
    parseStatus (str "hello") = { defaultStatus with rawStatus := str "hello" } ∧
    applySection defaultStatus (str "XX:1") = defaultStatus ∧
    applySection defaultStatus (str "noColon") = defaultStatus ∧
    (applyFS defaultStatus (str "x,2")).feedRate = defaultStatus.feedRate ∧
    applyBf defaultStatus (str "x,5") = defaultStatus ∧
    applyBf defaultStatus (str "5,x") =
      { defaultStatus with bufferPlanner := 5 } ∧
    applyOv defaultStatus (str "x,20,30") = defaultStatus ∧
    applyOv defaultStatus (str "10,x,30") =
      { defaultStatus with overrideFeed := 10 } ∧
    applyOv defaultStatus (str "10,20,x") =
      { defaultStatus with overrideFeed := 10, overrideRapid := 20 } :=
  ⟨(status_decode_defaults.1 (str "hello") (by decide)).1,
   status_decode_defaults.2.1 defaultStatus (str "XX:1") (str "XX")
     (by decide) (by decide),
   status_decode_defaults.2.2.1 defaultStatus (str "noColon") (by decide),
   status_decode_defaults.2.2.2.2.1 defaultStatus (str "x,2") (str "x")
     [str "2"] (by decide) (by decide),
   status_decode_defaults.2.2.2.2.2.1 defaultStatus (str "x,5") (str "x")
     (str "5") [] (by decide) (by decide),
   status_decode_defaults.2.2.2.2.2.2.2.1 defaultStatus (str "5,x") (str "5")
     (str "x") [] 5 (by decide) (by decide) (by decide),
   status_decode_defaults.2.2.2.2.2.2.2.2.1 defaultStatus (str "x,20,30")
     (str "x") (str "20") (str "30") [] (by decide) (by decide),
   status_decode_defaults.2.2.2.2.2.2.2.2.2.1 defaultStatus (str "10,x,30")
     (str "10") (str "x") (str "30") [] 10 (by decide) (by decide) (by decide),
   status_decode_defaults.2.2.2.2.2.2.2.2.2.2 defaultStatus (str "10,20,x")
     (str "10") (str "20") (str "x") [] 10 20 (by decide) (by decide)
     (by decide) (by decide)⟩

/-- C8: `error:9` decodes to code 9 with description
`Unsupported statement`; `error:999` and, in general, `error:<n>` for every
numeric code `n` outside the static table decode to that code with
description `Unknown error`; `parse_error_code` is total by construction
(a Lean function — the Python body catches every exception it can raise,
returning `(0, msg)` for non-decodable input). -/
theorem error_code_table :
    parseErrorCode (str "error:9") = (9, str "Unsupported statement") ∧
    parseErrorCode (str "error:999") = (999, str "Unknown error") ∧
    ∀ (s : Str), s ≠ [] → (∀ c ∈ s, c.isDigit = true) →
      ((natOfDigits s : Int) ∉ errorCodes.map Prod.fst) →
      parseErrorCode (str "error:" ++ s) =
        ((natOfDigits s : Int), str "Unknown error") := by
  refine ⟨by decide, by decide, ?_⟩
  intro s hne hdig hmem
  have hns : ∀ c ∈ s, c ≠ ':' := by
    intro c hc he
    have hd := hdig c hc
    rw [he] at hd
    exact absurd hd (by decide)
  have hget : (splitOnCh ':' (str "error:" ++ s)).get? 1 = some s := by
    rw [splitOnCh_error_preamble s hns]
    rfl
  have hstrip : stripW s = s := stripW_of_digits s hdig
  have hint : pyInt? (stripW s) = some (natOfDigits s : Int) := by
    rw [hstrip]
    exact pyInt?_of_digits s hne hdig
  have hlook : lookupCode errorCodes (natOfDigits s : Int) = none :=
    lookupCode_of_not_mem errorCodes _ hmem
  unfold parseErrorCode
  rw [if_pos (startsWithStr_append (str "error:") s)]
  simp only [hget, hint, hlook, Option.getD_none]

/-- Witness for `error_code_table` at the digit string `77`, a code outside
the table. -/
theorem error_code_table_witness :
    parseErrorCode (str "error:" ++ str "77") =
      ((natOfDigits (str "77") : Int), str "Unknown error") :=
  error_code_table.2.2 (str "77") (by decide) (by decide) (by decide)

end FluidNC
